import Mathlib

/-
Shallow embedding of the nes plugin registration module (src/lib/index.js):
the configuration schema, the registration pipeline, the authentication
handshake endpoint, and the lifecycle extension hooks.
-/

namespace Nes

/-- Options object passed to the sealing primitive (Iron). The module treats
it as opaque: it either forwards the configured object or the primitive's
defaults (src/lib/index.js:208). -/
structure IronOpts where
  tag : Nat := 0
deriving DecidableEq, Repr

/-- Iron.defaults, the default options of the external sealing primitive. -/
def ironDefaults : IronOpts := {}

/-- The three authentication modes accepted by the schema
(src/lib/index.js:51). -/
inductive AuthType
  | cookie
  | token
  | direct
deriving DecidableEq, Repr

/-- The auth configuration block after defaults are applied
(src/lib/index.js:18-30 and 48-71). A field of type Option stands for a key
that may be absent; for timeout and maxConnectionsPerUser, none stands for
the JavaScript value false (disabled). -/
structure AuthConfig where
  endpoint : String
  id : Option String := none
  type : AuthType
  cookie : String
  isSecure : Bool
  isHttpOnly : Bool
  path : Option String
  domain : Option String := none
  ttl : Option Int := none
  iron : Option IronOpts := none
  password : Option String := none
  index : Bool
  timeout : Option Int
  maxConnectionsPerUser : Option Int
deriving DecidableEq, Repr

/-- The headers setting: null (disabled), the wildcard, or an explicit
allowlist of header names (src/lib/index.js:31, 74). -/
inductive HeadersSetting
  | disabled
  | wildcard
  | list (fields : List String)
deriving DecidableEq, Repr

/-- The heartbeat block when not disabled (src/lib/index.js:35-38, 78-82). -/
structure HeartbeatConfig where
  interval : Int
  timeout : Int
deriving DecidableEq, Repr

/-- The full settings object after Hoek.applyToDefaults
(src/lib/index.js:90). auth = none and heartbeat = none stand for the
JavaScript value false (the corresponding feature disabled). -/
structure Settings where
  auth : Option AuthConfig
  headers : HeadersSetting
  maxChunkChars : Option Int
  heartbeat : Option HeartbeatConfig
  maxConnections : Option Int
deriving DecidableEq, Repr

/-- Joi schema fragment: number().integer().min(1).allow(false); none stands
for false (src/lib/index.js:69, 76, 83). -/
def posIntOrFalse : Option Int → Bool
  | none => true
  | some n => decide (1 ≤ n)

/-- Joi schema for auth.maxConnectionsPerUser (src/lib/index.js:70): an
integer of at least 1 or false, and when index is not true only false is
valid. -/
def maxConnectionsPerUserValid (index : Bool) : Option Int → Bool
  | none => true
  | some n => index && decide (1 ≤ n)

/-- Joi schema for the auth block when not disabled (src/lib/index.js:48-71),
restricted to the constraints not already enforced by the Lean types. -/
def authValid (cfg : AuthConfig) : Bool :=
  posIntOrFalse cfg.timeout
    && maxConnectionsPerUserValid cfg.index cfg.maxConnectionsPerUser

/-- Joi schema for the heartbeat block (src/lib/index.js:78-82): either
false, or interval and timeout both integers of at least 1 with timeout
strictly less than interval. -/
def heartbeatValid : Option HeartbeatConfig → Bool
  | none => true
  | some hb =>
    decide (1 ≤ hb.interval) && decide (1 ≤ hb.timeout)
      && decide (hb.timeout < hb.interval)

/-- Joi schema for the headers option (src/lib/index.js:74): an array of
strings with at least one element, the wildcard, or null. Validation runs
with conversion on, so mixed-case strings pass. -/
def headersValid : HeadersSetting → Bool
  | .disabled => true
  | .wildcard => true
  | .list fields => decide (1 ≤ fields.length)

/-- Joi.assert of the whole settings object against internals.schema
(src/lib/index.js:44-85, 91). -/
def settingsValid (s : Settings) : Bool :=
  (match s.auth with
    | none => true
    | some cfg => authValid cfg)
    && headersValid s.headers
    && posIntOrFalse s.maxChunkChars
    && heartbeatValid s.heartbeat
    && posIntOrFalse s.maxConnections

/-- The credential envelope the handshake handler builds from the request
(src/lib/index.js:193-196). -/
structure Envelope (α β : Type) where
  credentials : α
  artifacts : β
deriving DecidableEq, Repr

/-- The part of request.auth that the handshake handler reads
(src/lib/index.js:189-195). -/
structure RequestAuth (α β : Type) where
  isAuthenticated : Bool
  credentials : α
  artifacts : β
deriving DecidableEq, Repr

/-- The injected sealing primitive (Iron.seal, src/lib/index.js:208): given
the envelope, the password and the options, it reports an error or returns
the sealed string. -/
def SealFn (α β : Type) := Envelope α β → Option String → IronOpts → Except String String

/-- Everything the handshake handler can reply with
(src/lib/index.js:187-217). Each constructor is a reply sent back on the
request; the handler has no path that closes the connection. -/
inductive HandlerResult (α β : Type)
  | unauthenticated
  | directCreds (env : Envelope α β)
  | cookieAuth (status : String) (name : String) (value : Envelope α β)
  | tokenAuth (status : String) (token : String)
  | sealError (err : String)
deriving DecidableEq, Repr

/-- The handshake route handler (src/lib/index.js:187-217) as a function of
the effective auth config, the injected sealing primitive and the state of
the request. -/
def authHandlerFn {α β : Type} (config : AuthConfig) (sealFn : SealFn α β)
    (req : RequestAuth α β) : HandlerResult α β :=
  if !req.isAuthenticated then
    .unauthenticated
  else
    let credentials : Envelope α β :=
      { credentials := req.credentials, artifacts := req.artifacts }
    if config.type = .direct then
      .directCreds credentials
    else if config.type = .cookie then
      .cookieAuth "authenticated" config.cookie credentials
    else
      match sealFn credentials config.password (config.iron.getD ironDefaults) with
      | .error e => .sealError e
      | .ok sealed => .tokenAuth "authenticated" sealed

/-- Password setup at registration (src/lib/index.js:159-163): a non-direct
mode with no configured password receives the random string generated at
registration time. -/
def setupPassword (config : AuthConfig) (generated : String) : AuthConfig :=
  if config.type != .direct && config.password.isNone then
    { config with password := some generated }
  else
    config

/-- The options object handed to server.state for the auth cookie
(src/lib/index.js:166-175). -/
structure CookieStateOptions where
  isSecure : Bool
  isHttpOnly : Bool
  path : Option String
  domain : Option String
  ttl : Option Int
  encoding : String
  password : Option String
  iron : Option IronOpts
deriving DecidableEq, Repr

/-- Builds the cookie state options from the effective config
(src/lib/index.js:166-175). -/
def cookieOptionsOf (config : AuthConfig) : CookieStateOptions :=
  { isSecure := config.isSecure
    isHttpOnly := config.isHttpOnly
    path := config.path
    domain := config.domain
    ttl := config.ttl
    encoding := "iron"
    password := config.password
    iron := config.iron }

/-- What internals.auth registers on the server (src/lib/index.js:152-220):
the effective config after password setup, the optional cookie state
definition, and the shape of the handshake route. -/
structure AuthRegistration where
  config : AuthConfig
  cookieState : Option (String × CookieStateOptions)
  routeMethod : String
  routePath : String
  routeId : Option String
  isInternal : Bool
deriving DecidableEq, Repr

/-- internals.auth (src/lib/index.js:152-220): with auth disabled it
registers nothing; otherwise it fixes the password, registers the cookie
state in cookie mode, and registers the handshake route. -/
def internalsAuth (auth : Option AuthConfig) (generated : String) :
    Option AuthRegistration :=
  match auth with
  | none => none
  | some config0 =>
    let config := setupPassword config0 generated
    some
      { config := config
        cookieState :=
          if config.type = .cookie then
            some (config.cookie, cookieOptionsOf config)
          else
            none
        routeMethod := if config.type = .direct then "auth" else "GET"
        routePath := config.endpoint
        routeId := config.id
        isInternal := config.type = .direct }

/-- The response of the handshake endpoint registered by internals.auth, for
a registration that started from config and the registration-time random
string (src/lib/index.js:159-163 and 187-217). -/
def handshake {α β : Type} (config : AuthConfig) (generated : String)
    (sealFn : SealFn α β) (req : RequestAuth α β) : HandlerResult α β :=
  authHandlerFn (setupPassword config generated) sealFn req

/-- JavaScript String.prototype.toLowerCase as applied to header names
(src/lib/index.js:94), character by character. -/
def toLowerCase (s : String) : String :=
  String.mk (s.data.map Char.toLower)

/-- Header allowlist normalization (src/lib/index.js:93-95): an array of
header names is mapped to lowercase; any other value is left alone. -/
def normalizeHeaders : HeadersSetting → HeadersSetting
  | .list fields => .list (fields.map toLowerCase)
  | h => h

/-- The outcome of a successful registration: the effective settings and the
auth registration, when auth is enabled. -/
structure RegisterResult where
  settings : Settings
  authReg : Option AuthRegistration
deriving DecidableEq, Repr

/-- exports.register (src/lib/index.js:88-141) up to the auth endpoint:
validate the merged settings and fail registration on an invalid
configuration, then lowercase a headers array and register the auth
endpoint. -/
def register (settings : Settings) (generated : String) :
    Except String RegisterResult :=
  if !settingsValid settings then
    .error "Invalid nes configuration"
  else
    .ok
      { settings := { settings with headers := normalizeHeaders settings.headers }
        authReg := internalsAuth settings.auth generated }

/-- The per-listener state touched by the lifecycle hooks: the _stopped flag
cleared on start (src/lib/index.js:112-121). -/
structure ListenerState where
  _stopped : Bool
deriving DecidableEq, Repr

/-- The onPreStart extension (src/lib/index.js:112-121): clear the _stopped
flag of every owned listener, then hand the updated state to the
continuation extNext. -/
def onPreStart {ρ : Type} (listeners : List ListenerState)
    (extNext : List ListenerState → ρ) : ρ :=
  extNext (listeners.map fun l => { l with _stopped := false })

/-- Events observable while the server stops: the close path of listener i
completing, and the onPreStop extension signalling completion to the host. -/
inductive StopEvent
  | closed (i : Nat)
  | extNext
deriving DecidableEq, Repr

/-- Items.serial (the external items library, called at
src/lib/index.js:127): apply the iterator to each item in order, each step
starting only once the previous step invoked its callback, and invoke the
final callback after the last step. The embedding records the trace of
events each callback emits. -/
def itemsSerial {α ε : Type} (items : List α)
    (each : α → (Unit → List ε) → List ε) (final : Unit → List ε) : List ε :=
  match items with
  | [] => final ()
  | x :: xs => each x fun _ => itemsSerial xs each final

/-- Modelled from the spec: Listener.prototype._close lives in
lib/listener.js, which is not under src/. Per the spec, closing a listener
drives every owned session to closed and only then invokes the provided
callback, so the trace records the completion of the close path of listener
i before anything the callback emits. -/
def listenerClose (i : Nat) (callback : Unit → List StopEvent) :
    List StopEvent :=
  StopEvent.closed i :: callback ()

/-- The onPreStop extension (src/lib/index.js:125-128): Items.serial over
the owned listeners, closing each in turn, with the host continuation
extNext as the final callback. -/
def onPreStop (ids : List Nat) : List StopEvent :=
  itemsSerial ids listenerClose fun _ => [StopEvent.extNext]

/-- A token-mode configuration as merged with the defaults for the options
object of the scenario in the spec. -/
def sampleTokenConfig : AuthConfig :=
  { endpoint := "/nes/auth", type := AuthType.token, cookie := "nes",
    isSecure := true, isHttpOnly := true, path := some "/", index := false,
    timeout := some 5000, maxConnectionsPerUser := none }

/-- The same configuration in direct mode. -/
def sampleDirectConfig : AuthConfig :=
  { sampleTokenConfig with type := AuthType.direct }

/-- The same configuration in cookie mode. -/
def sampleCookieConfig : AuthConfig :=
  { sampleTokenConfig with type := AuthType.cookie }

/-- A sealing primitive that always succeeds. -/
def okSeal : SealFn String String := fun _ _ _ => Except.ok "sealed"

/-- A sealing primitive that always reports an error. -/
def failSeal : SealFn String String := fun _ _ _ => Except.error "boom"

/-- A request whose host credential check succeeded. -/
def sampleRequest : RequestAuth String String :=
  { isAuthenticated := true, credentials := "user", artifacts := "art" }

/-- A request the host reports unauthenticated. -/
def unauthRequest : RequestAuth String String :=
  { isAuthenticated := false, credentials := "user", artifacts := "art" }

end Nes

namespace Nes

/-- C1: for every registration whose auth config is token mode and every
request whose host credential check succeeds, the handshake endpoint replies
status "authenticated" with the token produced by the injected sealing
primitive on the credential envelope under the configured password or, when
none is configured, under the password generated once at registration. -/
theorem token_handshake_authenticated {α β : Type} (cfg : AuthConfig)
    (generated t : String) (sealFn : SealFn α β) (req : RequestAuth α β)
    (htype : cfg.type = AuthType.token)
    (hauth : req.isAuthenticated = true)
    (hseal : sealFn { credentials := req.credentials, artifacts := req.artifacts }
        (some (cfg.password.getD generated)) (cfg.iron.getD ironDefaults)
        = Except.ok t) :
    handshake cfg generated sealFn req
      = HandlerResult.tokenAuth "authenticated" t := by
  cases hpw : cfg.password with
  | none =>
    rw [hpw] at hseal
    simp only [Option.getD_none] at hseal
    simp [handshake, setupPassword, authHandlerFn, htype, hauth, hpw, hseal]
  | some p =>
    rw [hpw] at hseal
    simp only [Option.getD_some] at hseal
    simp [handshake, setupPassword, authHandlerFn, htype, hauth, hpw, hseal]

/-- C1 witness: the token handshake theorem applied to a concrete
configuration, sealing primitive and request. -/
theorem token_handshake_authenticated_witness :
    sampleTokenConfig.type = AuthType.token
    ∧ sampleRequest.isAuthenticated = true
    ∧ handshake sampleTokenConfig "pw" okSeal sampleRequest
        = HandlerResult.tokenAuth "authenticated" "sealed" :=
  ⟨rfl, rfl,
    token_handshake_authenticated sampleTokenConfig "pw" "sealed" okSeal
      sampleRequest rfl rfl rfl⟩

/-- C2: every merged configuration whose heartbeat block is present with
timeout at least interval fails validation, so registration fails before any
session logic runs. -/
theorem heartbeat_timeout_ge_interval_rejected (s : Settings) (g : String)
    (hb : HeartbeatConfig) (hhb : s.heartbeat = some hb)
    (hge : hb.interval ≤ hb.timeout) :
    register s g = Except.error "Invalid nes configuration" := by
  have h1 : heartbeatValid s.heartbeat = false := by
    rw [hhb]
    simp only [heartbeatValid, Bool.and_eq_false_iff, decide_eq_false_iff_not,
      not_lt, not_le]
    omega
  have h2 : settingsValid s = false := by
    simp [settingsValid, h1]
  simp [register, h2]

/-- C2 witness: the rejection theorem applied to a concrete configuration
with timeout equal to interval. -/
theorem heartbeat_timeout_ge_interval_rejected_witness :
    (Settings.mk none HeadersSetting.disabled none
        (some { interval := 1000, timeout := 1000 }) none).heartbeat
      = some { interval := 1000, timeout := 1000 }
    ∧ register
        (Settings.mk none HeadersSetting.disabled none
          (some { interval := 1000, timeout := 1000 }) none) "pw"
      = Except.error "Invalid nes configuration" :=
  ⟨rfl,
    heartbeat_timeout_ge_interval_rejected _ "pw"
      { interval := 1000, timeout := 1000 } rfl (by decide)⟩

/-- C3: with auth.index = false, any non-disabled auth.maxConnectionsPerUser
makes registration fail; with auth.index = true the field validator accepts
every integer of at least 1. -/
theorem maxConnectionsPerUser_requires_index :
    (∀ (s : Settings) (g : String) (cfg : AuthConfig) (n : Int),
      s.auth = some cfg → cfg.index = false →
      cfg.maxConnectionsPerUser = some n →
      register s g = Except.error "Invalid nes configuration")
    ∧ ∀ n : Int, 1 ≤ n → maxConnectionsPerUserValid true (some n) = true := by
  constructor
  · intro s g cfg n hsa hidx hmcpu
    have h1 : authValid cfg = false := by
      simp [authValid, maxConnectionsPerUserValid, hmcpu, hidx]
    have h2 : settingsValid s = false := by
      simp [settingsValid, hsa, h1]
    simp [register, h2]
  · intro n hn
    simp [maxConnectionsPerUserValid, hn]

/-- C3 witness: rejection at a concrete configuration with index false and
the cap set to 3, and acceptance of the field with index true. -/
theorem maxConnectionsPerUser_requires_index_witness :
    register
        (Settings.mk
          (some { sampleTokenConfig with maxConnectionsPerUser := some 3 })
          HeadersSetting.disabled none none none) "pw"
      = Except.error "Invalid nes configuration"
    ∧ maxConnectionsPerUserValid true (some 3) = true :=
  ⟨maxConnectionsPerUser_requires_index.1 _ "pw"
      { sampleTokenConfig with maxConnectionsPerUser := some 3 } 3 rfl rfl rfl,
    maxConnectionsPerUser_requires_index.2 3 (by decide)⟩

end Nes

namespace Nes

/-- C4: for every registration in direct mode and every request whose host
credential check succeeds, the handshake handler replies with exactly the
credentials and artifacts of the request, and registration leaves the config
untouched: no sealing password is generated or required in this mode. -/
theorem direct_handshake_verbatim {α β : Type} (cfg : AuthConfig)
    (g : String) (sealFn : SealFn α β) (req : RequestAuth α β)
    (htype : cfg.type = AuthType.direct)
    (hauth : req.isAuthenticated = true) :
    handshake cfg g sealFn req
        = HandlerResult.directCreds
            { credentials := req.credentials, artifacts := req.artifacts }
    ∧ setupPassword cfg g = cfg := by
  have hsetup : setupPassword cfg g = cfg := by
    simp [setupPassword, htype]
  exact ⟨by simp [handshake, hsetup, authHandlerFn, htype, hauth], hsetup⟩

/-- C4 witness: the direct-mode theorem applied to a concrete configuration
and request. -/
theorem direct_handshake_verbatim_witness :
    handshake sampleDirectConfig "pw" okSeal sampleRequest
        = HandlerResult.directCreds { credentials := "user", artifacts := "art" }
    ∧ setupPassword sampleDirectConfig "pw" = sampleDirectConfig :=
  direct_handshake_verbatim sampleDirectConfig "pw" okSeal sampleRequest rfl rfl

/-- C5: for every token-mode handshake in which the sealing primitive
reports an error, the handler replies with that error embedded in the
response; HandlerResult has no constructor that closes the connection, so
this path never does. -/
theorem token_seal_error_replied {α β : Type} (cfg : AuthConfig)
    (g e : String) (sealFn : SealFn α β) (req : RequestAuth α β)
    (htype : cfg.type = AuthType.token)
    (hauth : req.isAuthenticated = true)
    (hseal : sealFn { credentials := req.credentials, artifacts := req.artifacts }
        (some (cfg.password.getD g)) (cfg.iron.getD ironDefaults)
        = Except.error e) :
    handshake cfg g sealFn req = HandlerResult.sealError e := by
  cases hpw : cfg.password with
  | none =>
    rw [hpw] at hseal
    simp only [Option.getD_none] at hseal
    simp [handshake, setupPassword, authHandlerFn, htype, hauth, hpw, hseal]
  | some p =>
    rw [hpw] at hseal
    simp only [Option.getD_some] at hseal
    simp [handshake, setupPassword, authHandlerFn, htype, hauth, hpw, hseal]

/-- C5 witness: the sealing-failure theorem applied to a concrete
configuration and an always-failing sealing primitive. -/
theorem token_seal_error_replied_witness :
    handshake sampleTokenConfig "pw" failSeal sampleRequest
      = HandlerResult.sealError "boom" :=
  token_seal_error_replied sampleTokenConfig "pw" "boom" failSeal
    sampleRequest rfl rfl rfl

/-- C6: for every auth configuration and every sealing primitive, a request
the host reports unauthenticated gets exactly the unauthenticated status
reply; the result does not depend on the sealing primitive and carries no
credentials, token or cookie. -/
theorem unauthenticated_handshake {α β : Type} (cfg : AuthConfig)
    (g : String) (sealFn : SealFn α β) (req : RequestAuth α β)
    (hauth : req.isAuthenticated = false) :
    handshake cfg g sealFn req = HandlerResult.unauthenticated := by
  simp [handshake, authHandlerFn, hauth]

/-- C6 witness: the unauthenticated theorem applied to a concrete
configuration and request. -/
theorem unauthenticated_handshake_witness :
    handshake sampleCookieConfig "pw" okSeal unauthRequest
      = HandlerResult.unauthenticated :=
  unauthenticated_handshake sampleCookieConfig "pw" okSeal unauthRequest rfl

/-- C7: every cookie-mode registration registers the cookie under the
configured name with the configured attributes, sealed encoding and the
effective password, and a successful handshake replies status
"authenticated" while setting that cookie to the credential envelope. -/
theorem cookie_registration_handshake {α β : Type} (cfg : AuthConfig)
    (g : String) (sealFn : SealFn α β) (req : RequestAuth α β)
    (reg : AuthRegistration)
    (htype : cfg.type = AuthType.cookie)
    (hreg : internalsAuth (some cfg) g = some reg)
    (hauth : req.isAuthenticated = true) :
    reg.cookieState = some (cfg.cookie,
      { isSecure := cfg.isSecure, isHttpOnly := cfg.isHttpOnly,
        path := cfg.path, domain := cfg.domain, ttl := cfg.ttl,
        encoding := "iron", password := some (cfg.password.getD g),
        iron := cfg.iron })
    ∧ handshake cfg g sealFn req
        = HandlerResult.cookieAuth "authenticated" cfg.cookie
            { credentials := req.credentials, artifacts := req.artifacts } := by
  simp only [internalsAuth, Option.some.injEq] at hreg
  subst hreg
  cases hpw : cfg.password with
  | none =>
    constructor
    · simp [setupPassword, cookieOptionsOf, htype, hpw]
    · simp [handshake, setupPassword, authHandlerFn, htype, hauth, hpw]
  | some p =>
    constructor
    · simp [setupPassword, cookieOptionsOf, htype, hpw]
    · simp [handshake, setupPassword, authHandlerFn, htype, hauth, hpw]

end Nes

namespace Nes

/-- The registration record produced for the sample cookie configuration. -/
def sampleCookieReg : AuthRegistration :=
  { config := { sampleCookieConfig with password := some "pw" }
    cookieState := some ("nes",
      { isSecure := true, isHttpOnly := true, path := some "/",
        domain := none, ttl := none, encoding := "iron",
        password := some "pw", iron := none })
    routeMethod := "GET"
    routePath := "/nes/auth"
    routeId := none
    isInternal := false }

/-- C7 witness: the cookie-mode theorem applied to a concrete configuration,
registration record and request. -/
theorem cookie_registration_handshake_witness :
    internalsAuth (some sampleCookieConfig) "pw" = some sampleCookieReg
    ∧ sampleCookieReg.cookieState = some ("nes",
        { isSecure := true, isHttpOnly := true, path := some "/",
          domain := none, ttl := none, encoding := "iron",
          password := some "pw", iron := none })
    ∧ handshake sampleCookieConfig "pw" okSeal sampleRequest
        = HandlerResult.cookieAuth "authenticated" "nes"
            { credentials := "user", artifacts := "art" } := by
  refine ⟨rfl, ?_⟩
  exact cookie_registration_handshake sampleCookieConfig "pw" okSeal
    sampleRequest sampleCookieReg rfl rfl rfl

/-- C8: the onPreStop hook closes every owned listener one after another,
and signals completion to the host only afterwards: its event trace is the
close completion of each listener, in registration order, followed by the
single extNext event. -/
theorem stop_closes_all_then_extNext (ids : List Nat) :
    onPreStop ids = ids.map StopEvent.closed ++ [StopEvent.extNext] := by
  induction ids with
  | nil => rfl
  | cons x xs ih =>
    show StopEvent.closed x :: onPreStop xs = _
    rw [ih]
    rfl

/-- C9: the onPreStart hook hands the continuation the listener list with
every _stopped flag already cleared, so on every start, a restart included,
all owned listeners accept connections again before completion is
signalled. -/
theorem start_clears_stopped (listeners : List ListenerState) :
    (∀ (ρ : Type) (extNext : List ListenerState → ρ),
      onPreStart listeners extNext
        = extNext (listeners.map fun l => { l with _stopped := false }))
    ∧ ∀ l ∈ onPreStart listeners id, l._stopped = false := by
  refine ⟨fun ρ extNext => rfl, ?_⟩
  intro l hl
  simp only [onPreStart, id_eq, List.mem_map] at hl
  obtain ⟨a, -, rfl⟩ := hl
  rfl

/-- C9 witness: the start theorem applied to a one-listener list that was
stopped. -/
theorem start_clears_stopped_witness :
    ListenerState.mk false ∈ onPreStart [ListenerState.mk true] id
    ∧ (ListenerState.mk false)._stopped = false :=
  ⟨by decide,
    (start_clears_stopped [ListenerState.mk true]).2 (ListenerState.mk false)
      (by decide)⟩

/-- C10: when registration succeeds, a headers allowlist comes out with
every element lowercased, element for element, while a wildcard or disabled
headers option is left unchanged. -/
theorem headers_lowercased (s : Settings) (g : String) (r : RegisterResult)
    (hreg : register s g = Except.ok r) :
    (∀ fields, s.headers = HeadersSetting.list fields →
      r.settings.headers = HeadersSetting.list (fields.map toLowerCase))
    ∧ (s.headers = HeadersSetting.wildcard →
      r.settings.headers = HeadersSetting.wildcard)
    ∧ (s.headers = HeadersSetting.disabled →
      r.settings.headers = HeadersSetting.disabled) := by
  cases hv : settingsValid s with
  | false => simp [register, hv] at hreg
  | true =>
    simp only [register, hv, Bool.not_true, Bool.false_eq_true, if_false,
      Except.ok.injEq] at hreg
    subst hreg
    refine ⟨?_, ?_, ?_⟩
    · intro fields hf
      simp [normalizeHeaders, hf]
    · intro hf
      simp [normalizeHeaders, hf]
    · intro hf
      simp [normalizeHeaders, hf]

/-- A settings object supplying a mixed-case headers allowlist. -/
def mixedHeadersSettings : Settings :=
  { auth := none, headers := HeadersSetting.list ["Authorization", "Cookie"],
    maxChunkChars := none, heartbeat := none, maxConnections := none }

/-- The registration outcome for the mixed-case headers settings. -/
def mixedHeadersResult : RegisterResult :=
  { settings := { mixedHeadersSettings with
      headers := HeadersSetting.list ["authorization", "cookie"] }
    authReg := none }

/-- C10 witness: the lowercasing theorem applied to a concrete registration
with a mixed-case allowlist. -/
theorem headers_lowercased_witness :
    register mixedHeadersSettings "pw" = Except.ok mixedHeadersResult
    ∧ mixedHeadersResult.settings.headers
        = HeadersSetting.list (["Authorization", "Cookie"].map toLowerCase) :=
  ⟨rfl,
    (headers_lowercased mixedHeadersSettings "pw" mixedHeadersResult
      rfl).1 _ rfl⟩

end Nes
